import Mathlib

/-!
# uv++ : Loop, Handle::close and Timer

A shallow embedding of `include/uv++/loop.hpp` and `include/uv++/handles/timer.hpp`.

* Pointers are natural numbers (object identity); `0` is never special here.
* libuv is an external engine.  Every call the C++ code makes into it is appended to
  `World.calls`; what libuv answers (a status, the result of `uv_run`) is an input.
* `std::chrono` durations with an integral representation of at most 64 bits are a
  tick count together with the period `num/den` in seconds.
* A handle object and the native handle embedded in it share one identity.
* The classes `HandleBase`, `Handle` and `Async` are declared in handle.hpp and async.hpp;
  what the embedding needs of them is modelled from the specification and marked so.
* Everything runs on the reactor thread: threads are not part of the embedding.
-/

namespace uv

/-- An object address (identity of a handle, of the loop). -/
abbrev Ptr := Nat

/-! ## std::chrono -/

/-- A `std::ratio<num, den>`. -/
structure Ratio where
  num : Nat
  den : Nat
  deriving DecidableEq, Repr

/-- The `std::milli` ratio, `1/1000`. -/
def Ratio.milli : Ratio := ⟨1, 1000⟩

/-- The `std::ratio_divide<a, b>` ratio, in lowest terms. -/
def ratio_divide (a b : Ratio) : Ratio :=
  let n := a.num * b.den
  let d := a.den * b.num
  ⟨n / Nat.gcd n d, d / Nat.gcd n d⟩

/-- A `std::chrono::duration<_Rep, _Period>` whose `_Rep` is an integer type of at most
64 bits: `count` is the stored tick count, `period` the length of a tick in seconds. -/
structure Duration where
  count : Int
  period : Ratio
  deriving DecidableEq, Repr

/-- The default argument `std::chrono::duration<uint64_t, std::milli>(duration_values<uint64_t>::zero())`. -/
def Duration.zero_millis : Duration := ⟨0, Ratio.milli⟩

/-- Number of values of `uint64_t`. -/
def UINT64 : Nat := 2 ^ 64

/-- The `static_cast<uint64_t>` of an integer. -/
def to_uint64 (c : Int) : Nat := (c % (UINT64 : Int)).toNat

/-- The call `std::chrono::duration_cast<millis>(d).count()` with
`millis = duration<uint64_t, std::milli>`, as the standard defines it: with
`CF = ratio_divide<_Period, std::milli>` and `CR = common_type<_Rep, uint64_t, intmax_t>`,
which is `uint64_t` for every integral `_Rep`, the count is converted to `CR`, multiplied by
`CF::num` and divided by `CF::den` in `CR` arithmetic (a factor equal to 1 is skipped). -/
def duration_cast_millis (d : Duration) : Nat :=
  let CF := ratio_divide d.period Ratio.milli
  let c := to_uint64 d.count
  if CF.num = 1 ∧ CF.den = 1 then c
  else if CF.den = 1 then (c * (CF.num % UINT64)) % UINT64
  else if CF.num = 1 then c / (CF.den % UINT64)
  else ((c * (CF.num % UINT64)) % UINT64) / (CF.den % UINT64)

/-! ## Callables and native callbacks -/

/-- A callable stored in a continuation. -/
inductive Callable where
  /-- A callable supplied by application code, known by its identity. -/
  | user (id : Nat)
  /-- The lambda `[this](auto &, close_args h) { uv_close(h.first, h.second); }` of `Loop::_init`. -/
  | loop_close_handler
  deriving DecidableEq, Repr

/-- The capture-less lambdas handed to libuv as C callbacks. -/
inductive NativeCb where
  /-- The lambda of `Timer::start`: dispatches `d->continuation` on `d->self`. -/
  | timer_dispatch
  /-- The lambda of `Handle::close`: calls `d->secondary_continuation`'s `f` on `*d->self`. -/
  | close_secondary
  deriving DecidableEq, Repr

/-- The `HandleData` record behind `h->data`. -/
structure HandleData where
  self : Ptr
  continuation : Option Callable
  secondary_continuation : Option Callable
  deriving DecidableEq, Repr

/-- The `Loop::close_args` pair `std::pair<uv_handle_t *, void (*)(uv_handle_t *)>`. -/
abbrev close_args := Ptr × NativeCb

/-- The `uv_run_mode` of libuv. -/
inductive uv_run_mode where
  | UV_RUN_DEFAULT
  | UV_RUN_ONCE
  | UV_RUN_NOWAIT
  deriving DecidableEq, Repr

/-- What the code does to the outside: calls into libuv, sleeping, running a user callable. -/
inductive Call where
  | uv_loop_init (loop : Ptr)
  | uv_async_init (loop handle : Ptr)
  | uv_timer_init (loop handle : Ptr) (status : Int)
  | uv_timer_start (handle : Ptr) (cb : NativeCb) (timeout : Nat) (rep : Nat)
  | uv_close (handle : Ptr) (cb : NativeCb)
  | uv_run (loop : Ptr) (mode : uv_run_mode) (result : Int)
  | uv_stop (loop : Ptr)
  | sleep_for (delay : Nat)
  | invoke (f : Nat) (self : Ptr)
  deriving DecidableEq, Repr

/-- A payload waiting in an Async channel: the channel, the payload, and the token that the
`send` which queued it returned. -/
structure Pending where
  channel : Ptr
  payload : close_args
  token : Nat
  deriving DecidableEq, Repr

/-- The state of one `Loop` with its handles.

`_loop`, `external`, `stopped`, `handle_set`, `close_async` are the members of `Loop`;
`data` is the `internal_data` of every handle bound so far; `async_queue` and `next_token`
belong to the Async channels; `uv_timer_init_status` is the status libuv answers to
`uv_timer_init(loop, handle)`; `calls` is the chronological record of outside effects. -/
structure World where
  _loop : Ptr
  external : Bool
  stopped : Bool
  handle_set : List Ptr
  close_async : Option Ptr
  data : Ptr → Option HandleData
  async_queue : List Pending
  next_token : Nat
  uv_timer_init_status : Ptr → Ptr → Int
  calls : List Call

/-- Whether an outside effect is a `uv_run` call. -/
def Call.is_uv_run : Call → Bool
  | Call.uv_run _ _ _ => true
  | _ => false

/-- Append one outside effect to the record. -/
def World.log (w : World) (c : Call) : World := { w with calls := w.calls ++ [c] }

/-- Overwrite the `internal_data` of handle `h`. -/
def World.set_data (w : World) (h : Ptr) (d : HandleData) : World :=
  { w with data := fun x => if x = h then some d else w.data x }

/-! ## Handle kinds -/

/-- The members of a handle class `H` that `Loop::new_handle<H>` relies on: the kind's native
registration `H::_init()` and its `H::start(args...)`. -/
structure HandleKind (Args : Type) where
  _init : Ptr → World → World
  start : Ptr → Args → World → World

/-- Modelled from the spec: the two-argument `HandleBase::init(Loop *, uv_loop_t *)` is in
handle.hpp, which is not among the sources.  It binds the handle to the loop (its
`internal_data` gets `self`, no continuation yet) and performs the one-time native
registration of the handle kind, `_init()`.  The `_init()` of timer.hpp and of loop.hpp
return `void`, so no native status can reach this function. -/
def HandleBase.init_loop_handle {Args : Type} (H : HandleKind Args) (self : Ptr) (w : World) : World :=
  H._init self (w.set_data self ⟨self, none, none⟩)

/-- The `HandleBase<H>::init(Loop *l)` of loop.hpp: `assert(l != nullptr); this->init(l, l->handle());`
(the loop is the one of the world, never null). -/
def HandleBase.init {Args : Type} (H : HandleKind Args) (self : Ptr) (w : World) : World :=
  HandleBase.init_loop_handle H self w

/-! ## Timer -/

/-- Arguments of `Timer::start`: the callable, the timeout and the repeat interval, which may
be omitted (`none`). -/
structure TimerArgs where
  f : Callable
  timeout : Duration
  rep : Option Duration
  deriving DecidableEq, Repr

/-- The `Timer::_init()`: `uv_timer_init(this->_uv_loop, &_handle);` the status that libuv returns
is dropped (the function is `void`). -/
def Timer._init (self : Ptr) (w : World) : World :=
  let status := w.uv_timer_init_status w._loop self
  w.log (Call.uv_timer_init w._loop self status)

/-- Replace the primary continuation in the `internal_data` of `self`. -/
def World.set_continuation (w : World) (self : Ptr) (f : Callable) : World :=
  match w.data self with
  | some d => w.set_data self { d with continuation := some f }
  | none => w.set_data self ⟨self, some f, none⟩

/-- The `Timer::start(f, timeout, repeat = 0ms)`: stores the continuation, then
`uv_timer_start(handle, lambda, duration_cast<millis>(timeout).count(), duration_cast<millis>(repeat).count())`. -/
def Timer.start (self : Ptr) (a : TimerArgs) (w : World) : World :=
  let rep := a.rep.getD Duration.zero_millis
  let w1 := w.set_continuation self a.f
  w1.log (Call.uv_timer_start self NativeCb.timer_dispatch
    (duration_cast_millis a.timeout) (duration_cast_millis rep))

/-- The class `Timer` as a handle kind. -/
def Timer.kind : HandleKind TimerArgs := ⟨Timer._init, Timer.start⟩

/-! ## Async channel -/

/-- Modelled from the spec: the class `Async` is in async.hpp, which is not among the sources.
Its native registration announces the wake primitive to the reactor. -/
def Async._init (self : Ptr) (w : World) : World :=
  w.log (Call.uv_async_init w._loop self)

/-- Modelled from the spec: the class `Async` is in async.hpp, which is not among the sources.
`start(handler)` registers the handler of the channel as its primary continuation. -/
def Async.start (self : Ptr) (handler : Callable) (w : World) : World :=
  w.set_continuation self handler

/-- The class `Async<close_args>` as a handle kind. -/
def Async.kind : HandleKind Callable := ⟨Async._init, Async.start⟩

/-- Modelled from the spec: the class `Async` is in async.hpp, which is not among the sources.
`send(payload)` enqueues the payload behind those already waiting and returns the future-like
token paired with this payload; the handler runs later, on the reactor thread. -/
def Async.send (channel : Ptr) (payload : close_args) (w : World) : Nat × World :=
  (w.next_token,
   { w with async_queue := w.async_queue ++ [⟨channel, payload, w.next_token⟩],
            next_token := w.next_token + 1 })

/-! ## Loop -/

/-- The `handle_set.insert(p)` of a `std::unordered_set`: the element equal to `p` that the set
holds afterwards, whether the insertion took place, and the set afterwards. -/
def handle_set_insert (s : List Ptr) (p : Ptr) : (Ptr × Bool) × List Ptr :=
  match s.find? (fun x => x == p) with
  | some old => ((old, false), s)
  | none => ((p, true), s ++ [p])

/-- The `Loop::new_handle<H>(args...)`; `fresh` is the address `std::make_shared<H>()` returns.
The handle is inserted into `handle_set` (on a collision the element already there is used),
then `init(this)` and `start(args...)` are called on it, and it is returned. -/
def Loop.new_handle {Args : Type} (H : HandleKind Args) (fresh : Ptr) (args : Args) (w : World) :
    Ptr × World :=
  let it_inserted := handle_set_insert w.handle_set fresh
  let w1 := { w with handle_set := it_inserted.2 }
  let p := if !it_inserted.1.2 then it_inserted.1.1 else fresh
  let w2 := HandleBase.init H p w1
  let w3 := H.start p args w2
  (p, w3)

/-- The factory `Loop::idle(args...)`; the class `Idle` is a parameter. -/
def Loop.idle {Args : Type} (Idle : HandleKind Args) (fresh : Ptr) (args : Args) (w : World) :
    Ptr × World :=
  Loop.new_handle Idle fresh args w

/-- The factory `Loop::prepare(args...)`; the class `Prepare` is a parameter. -/
def Loop.prepare {Args : Type} (Prepare : HandleKind Args) (fresh : Ptr) (args : Args) (w : World) :
    Ptr × World :=
  Loop.new_handle Prepare fresh args w

/-- The factory `Loop::check(args...)`; the class `Check` is a parameter. -/
def Loop.check {Args : Type} (Check : HandleKind Args) (fresh : Ptr) (args : Args) (w : World) :
    Ptr × World :=
  Loop.new_handle Check fresh args w

/-- The factory `Loop::signal(args...)`; the class `Signal` is a parameter. -/
def Loop.signal {Args : Type} (Signal : HandleKind Args) (fresh : Ptr) (args : Args) (w : World) :
    Ptr × World :=
  Loop.new_handle Signal fresh args w

/-- The factory `Loop::async<P, R>(args...)`; the class `Async<P, R>` is a parameter. -/
def Loop.async {Args : Type} (Async : HandleKind Args) (fresh : Ptr) (args : Args) (w : World) :
    Ptr × World :=
  Loop.new_handle Async fresh args w

/-- The overload `Loop::timer(Functor f, timeout, repeat = 0ms)`; an omitted `repeat` is `none`. -/
def Loop.timer_f_t_r (fresh : Ptr) (f : Callable) (timeout : Duration) (rep : Option Duration)
    (w : World) : Ptr × World :=
  Loop.new_handle Timer.kind fresh ⟨f, timeout, some (rep.getD Duration.zero_millis)⟩ w

/-- The overload `Loop::timer(timeout, repeat, Functor f)`. -/
def Loop.timer_t_r_f (fresh : Ptr) (timeout : Duration) (rep : Duration) (f : Callable)
    (w : World) : Ptr × World :=
  Loop.timer_f_t_r fresh f timeout (some rep) w

/-- The overload `Loop::timer(timeout, Functor f, repeat = 0ms)`; an omitted `repeat` is `none`. -/
def Loop.timer_t_f_r (fresh : Ptr) (timeout : Duration) (f : Callable) (rep : Option Duration)
    (w : World) : Ptr × World :=
  Loop.timer_f_t_r fresh f timeout (some (rep.getD Duration.zero_millis)) w

/-- The overload `Loop::repeat(repeat, Functor f, timeout = 0ms)`; an omitted `timeout` is `none`. -/
def Loop.repeat_r_f_t (fresh : Ptr) (rep : Duration) (f : Callable) (timeout : Option Duration)
    (w : World) : Ptr × World :=
  Loop.timer_f_t_r fresh f (timeout.getD Duration.zero_millis) (some rep) w

/-- The overload `Loop::repeat(Functor f, repeat, timeout = 0ms)`; an omitted `timeout` is `none`. -/
def Loop.repeat_f_r_t (fresh : Ptr) (f : Callable) (rep : Duration) (timeout : Option Duration)
    (w : World) : Ptr × World :=
  Loop.new_handle Timer.kind fresh ⟨f, timeout.getD Duration.zero_millis, some rep⟩ w

/-- The `Loop::_init()`: `uv_loop_init` unless the reactor is external, then the close channel
`close_async = this->async<close_args>(lambda)`; `fresh` is the address of the new channel. -/
def Loop._init (fresh : Ptr) (w : World) : World :=
  let w1 := if !w.external then w.log (Call.uv_loop_init w._loop) else w
  let r := Loop.async Async.kind fresh Callable.loop_close_handler w1
  { r.2 with close_async := some r.1 }

/-- Modelled from the spec: the two-argument `HandleBase::init(Loop *, uv_loop_t *)` is in
handle.hpp.  The constructors `Loop()` (`ext = false`, the reactor is `new handle_t`) and
`Loop(handle_t *l)` (`ext = true`) call it on the loop itself: the loop is bound to its
reactor `l`, then `Loop::_init()` runs.  `status` is what libuv will answer to `uv_timer_init`. -/
def Loop.construct (ext : Bool) (l : Ptr) (fresh : Ptr) (status : Ptr → Ptr → Int) : World :=
  Loop._init fresh
    { _loop := l, external := ext, stopped := false, handle_set := [], close_async := none,
      data := fun _ => none, async_queue := [], next_token := 0,
      uv_timer_init_status := status, calls := [] }

/-- What one `uv_run` call does as seen from `Loop`: the value it returns and whether a callback
it ran invoked `Loop::stop()`. -/
structure RunOutcome where
  result : Int
  stop_called : Bool
  deriving DecidableEq, Repr

/-- The `Loop::stop()`: `stopped = true; uv_stop(handle());`. -/
def Loop.stop (w : World) : World :=
  ({ w with stopped := true }).log (Call.uv_stop w._loop)

/-- The `Loop::run(mode)`: `stopped = false; return uv_run(handle(), mode);` where the `uv_run`
call behaves as `o` says. -/
def Loop.run (mode : uv_run_mode) (o : RunOutcome) (w : World) : Int × World :=
  let w1 := { w with stopped := false }
  let w2 := w1.log (Call.uv_run w1._loop mode o.result)
  let w3 := if o.stop_called then Loop.stop w2 else w2
  (o.result, w3)

/-- The loop `while (!stopped) { if (!this->run()) sleep_for(delay); }` of `Loop::run_forever`;
`run()` is `run(UV_RUN_DEFAULT)`.
The script lists what the successive `uv_run` calls do; `none` means the script is used up
and the loop is still running. -/
def Loop.run_forever_loop (delay : Nat) : List RunOutcome → World → Option World
  | [], w => if w.stopped then some w else none
  | o :: rest, w =>
    if w.stopped then some w
    else
      let r := Loop.run uv_run_mode.UV_RUN_DEFAULT o w
      let w1 := if r.1 = 0 then r.2.log (Call.sleep_for delay) else r.2
      Loop.run_forever_loop delay rest w1

/-- The `Loop::run_forever(delay)`: `stopped = false;` then the loop. -/
def Loop.run_forever (delay : Nat) (script : List RunOutcome) (w : World) : Option World :=
  Loop.run_forever_loop delay script { w with stopped := false }

/-! ## Handle::close -/

/-- Replace the secondary continuation in the `internal_data` of `self`. -/
def World.set_secondary_continuation (w : World) (self : Ptr) (f : Callable) : World :=
  match w.data self with
  | some d => w.set_data self { d with secondary_continuation := some f }
  | none => w.set_data self ⟨self, none, some f⟩

/-- The `Handle<H, D>::close(Functor f)`:
`internal_data.secondary_continuation = make_shared<Cont>(f);` then
`return loop()->close_async->send(make_pair((uv_handle_t *) handle(), lambda));`.
The result is `none` when `close_async` is still null. -/
def Handle.close (self : Ptr) (f : Callable) (w : World) : Option (Nat × World) :=
  let w1 := w.set_secondary_continuation self f
  match w1.close_async with
  | none => none
  | some channel => some (Async.send channel (self, NativeCb.close_secondary) w1)

/-- The state right after `close`, when the loop has its close channel. -/
def World.after_close (w : World) (h ch : Ptr) (f : Callable) : World :=
  { w.set_secondary_continuation h f with
    async_queue := w.async_queue ++ [⟨ch, (h, NativeCb.close_secondary), w.next_token⟩],
    next_token := w.next_token + 1 }

/-- The body of the lambda installed by `Loop::_init`: `uv_close(h.first, h.second);`. -/
def Loop.close_handler (h : close_args) (w : World) : World :=
  w.log (Call.uv_close h.1 h.2)

/-- Invoke the handler of an Async channel on a payload: the lambda of `Loop::_init`, or a
callable of the application, whose only recorded effect is that it ran. -/
def Callable.handle (g : Callable) (channel : Ptr) (h : close_args) (w : World) : World :=
  match g with
  | Callable.loop_close_handler => Loop.close_handler h w
  | Callable.user id => w.log (Call.invoke id channel)

/-- Modelled from the spec: the class `Async` is in async.hpp, which is not among the sources.
On the reactor thread the oldest waiting payload is taken from the queue and the handler
registered for its channel is invoked once with it; `none` when nothing waits or the channel
has no handler. -/
def Async.deliver (w : World) : Option World :=
  match w.async_queue with
  | [] => none
  | item :: rest =>
    match w.data item.channel with
    | none => none
    | some d =>
      match d.continuation with
      | none => none
      | some g => some (Callable.handle g item.channel item.payload { w with async_queue := rest })

/-- Deliver one payload for each entry of `items`, oldest first. -/
def Async.drain_items : List Pending → World → Option World
  | [], w => some w
  | _ :: rest, w => (Async.deliver w).bind (Async.drain_items rest)

/-- Modelled from the spec: the class `Async` is in async.hpp, which is not among the sources.
The reactor thread drains the payloads that are waiting, invoking the handler once per
payload in the order in which they were queued. -/
def Async.drain (w : World) : Option World :=
  Async.drain_items w.async_queue w

/-- The body of the lambda that `Handle::close` passes as native close callback:
`d = h->data; self = d->self; static_cast<Cont *>(d->secondary_continuation.get())->f(*self);`.
`none` when `h` has no data or no callable of the application as secondary continuation. -/
def Handle.close_cb (h : Ptr) (w : World) : Option World :=
  match w.data h with
  | none => none
  | some d =>
    match d.secondary_continuation with
    | some (Callable.user id) => some (w.log (Call.invoke id d.self))
    | _ => none

/-! ## Loop::print_handles -/

/-- The flag bits that `print_handles` defines for the platform it is compiled for. -/
structure HandleFlags where
  UV__HANDLE_INTERNAL : Nat
  UV__HANDLE_ACTIVE : Nat
  UV__HANDLE_REF : Nat
  deriving DecidableEq, Repr

/-- The values in the `#ifndef _WIN32` branch. -/
def HandleFlags.unix : HandleFlags := ⟨0x8000, 0x4000, 0x2000⟩

/-- The values in the `_WIN32` branch. -/
def HandleFlags.win32 : HandleFlags := ⟨0x80, 0x40, 0x20⟩

/-- The fields of a native `uv_handle_t` that `print_handles` reads, and its address. -/
structure uv_handle_t where
  flags : Nat
  type : Nat
  addr : Ptr
  deriving DecidableEq, Repr

/-- The table `UV_HANDLE_TYPE_MAP` of libuv's uv.h, as pairs of the enumerator value `UV_<uc>`
and the lower-case name: it is what the `switch` of `print_handles` expands to. -/
def UV_HANDLE_TYPE_MAP : List (Nat × String) :=
  [(1, "async"), (2, "check"), (3, "fs_event"), (4, "fs_poll"), (5, "handle"), (6, "idle"),
   (7, "pipe"), (8, "poll"), (9, "prepare"), (10, "process"), (11, "stream"), (12, "tcp"),
   (13, "timer"), (14, "tty"), (15, "udp"), (16, "signal")]

/-- A `std::basic_ostream`: the characters written so far and the formatting state that the
insertions of `print_handles` depend on (field width, fill character, left adjustment). -/
structure OStream where
  buf : List Char
  width : Nat
  fill : Char
  left : Bool
  deriving DecidableEq, Repr

/-- A formatted insertion `out << text`: the text is padded with the fill character up to the
field width, on the right when the stream is left-adjusted, and the width is reset to 0. -/
def OStream.insert (out : OStream) (text : List Char) : OStream :=
  let pad := List.replicate (out.width - text.length) out.fill
  { out with buf := out.buf ++ (if out.left then text ++ pad else pad ++ text), width := 0 }

/-- The manipulator `std::setw(n)`. -/
def OStream.setw (out : OStream) (n : Nat) : OStream := { out with width := n }

/-- The manipulator `std::left`. -/
def OStream.set_left (out : OStream) : OStream := { out with left := true }

/-- The manipulator `std::endl`: a newline, unformatted (and a flush). -/
def OStream.endl (out : OStream) : OStream := { out with buf := out.buf ++ ['\n'] }

/-- The subscript `s[i]` of a string literal `s`; the terminating NUL follows its characters. -/
def c_subscript (s : String) (i : Nat) : Char := s.toList.getD i (Char.ofNat 0)

/-- The C negation `!x` of an integer, as the integer 0 or 1. -/
def c_not (x : Nat) : Nat := if x = 0 then 1 else 0

/-- The name that the `switch (h->type)` of `print_handles` selects: the lower-case name of the
table for a listed type, `"<unknown>"` by `default`. -/
def print_handles_type (map : List (Nat × String)) (t : Nat) : String :=
  match map.lookup t with
  | some lc => lc
  | none => "<unknown>"

/-- The test `!only_active || ( h->flags & UV__HANDLE_ACTIVE != 0 )` of `print_handles`.  In C++
`!=` binds tighter than `&`, so the right operand of `&` is the comparison
`UV__HANDLE_ACTIVE != 0`, converted to the integer 0 or 1. -/
def print_handles_selects (fl : HandleFlags) (only_active : Bool) (h : uv_handle_t) : Bool :=
  !only_active || (h.flags &&& (if fl.UV__HANDLE_ACTIVE ≠ 0 then 1 else 0)) != 0

/-- The statement `out << "[" << "R-"[...] << "A-"[...] << "I-"[...] << "] " << std::setw(8)
<< std::left << type << " 0x" << h << std::endl;` of `print_handles`.  How the stream renders
the pointer `h` is implementation-defined and given by `show_ptr`. -/
def print_handles_line (fl : HandleFlags) (map : List (Nat × String)) (show_ptr : Ptr → List Char)
    (out : OStream) (h : uv_handle_t) : OStream :=
  let type := print_handles_type map h.type
  let o1 := out.insert "[".toList
  let o2 := o1.insert [c_subscript "R-" (c_not (h.flags &&& fl.UV__HANDLE_REF))]
  let o3 := o2.insert [c_subscript "A-" (c_not (h.flags &&& fl.UV__HANDLE_ACTIVE))]
  let o4 := o3.insert [c_subscript "I-" (c_not (h.flags &&& fl.UV__HANDLE_INTERNAL))]
  let o5 := o4.insert "] ".toList
  let o6 := ((o5.setw 8).set_left).insert type.toList
  let o7 := o6.insert " 0x".toList
  let o8 := o7.insert (show_ptr h.addr)
  o8.endl

/-- The `Loop::print_handles(out, only_active)`: the handles of the reactor's `handle_queue` are
visited in queue order, and a line is written for each one that passes the test. -/
def Loop.print_handles (fl : HandleFlags) (map : List (Nat × String)) (show_ptr : Ptr → List Char)
    (handle_queue : List uv_handle_t) (out : OStream) (only_active : Bool) : OStream :=
  handle_queue.foldl
    (fun o h => if print_handles_selects fl only_active h then print_handles_line fl map show_ptr o h else o)
    out

/-- One rendering of a pointer by the stream: its hexadecimal digits. -/
def hex_digits (p : Ptr) : List Char := Nat.toDigits 16 p

/-! ## Arithmetic of the conversion to milliseconds -/

/-- A natural tick count converts to `uint64_t` by reduction modulo `2 ^ 64`. -/
theorem to_uint64_natCast (n : Nat) : to_uint64 (n : Int) = n % UINT64 := by
  unfold to_uint64 UINT64
  omega

/-- All four cases of the cast agree with multiply-then-divide in `uint64_t` arithmetic. -/
theorem duration_cast_millis_eq (d : Duration) :
    duration_cast_millis d =
      ((to_uint64 d.count * ((ratio_divide d.period Ratio.milli).num % UINT64)) % UINT64)
        / ((ratio_divide d.period Ratio.milli).den % UINT64) := by
  have hc : to_uint64 d.count < UINT64 := by
    unfold to_uint64 UINT64
    omega
  have h1 : (1 : Nat) % UINT64 = 1 := by decide
  unfold duration_cast_millis
  simp only []
  split_ifs with ha hb hc'
  · rw [ha.1, ha.2, h1, Nat.mul_one, Nat.mod_eq_of_lt hc, Nat.div_one]
  · rw [hb, h1, Nat.div_one]
  · rw [hc', h1, Nat.mul_one, Nat.mod_eq_of_lt hc]
  · rfl

/-- Without overflow the cast is the exact floor of the duration in milliseconds. -/
theorem duration_cast_millis_exact (n p q : Nat) (hq : q < 2 ^ 63)
    (hn : n * (1000 * p / Nat.gcd (1000 * p) q) < 2 ^ 64) :
    duration_cast_millis ⟨(n : Int), ⟨p, q⟩⟩ = n * 1000 * p / q := by
  rw [duration_cast_millis_eq, to_uint64_natCast]
  simp only [ratio_divide, Ratio.milli, Nat.mul_one]
  rw [Nat.mul_comm p 1000]
  set g := Nat.gcd (1000 * p) q with hg
  have hU : UINT64 = 2 ^ 64 := rfl
  rw [hU]
  have hDle : q / g ≤ q := Nat.div_le_self q g
  have hD : q / g % 2 ^ 64 = q / g := Nat.mod_eq_of_lt (by omega)
  rw [hD]
  rcases Nat.eq_zero_or_pos g with hg0 | hgpos
  · -- both 1000 * p and q vanish
    have hq0 : q = 0 := (Nat.gcd_eq_zero_iff.mp (hg ▸ hg0)).2
    simp [hg0, hq0]
  · have hP : 1000 * p = (1000 * p / g) * g := (Nat.div_mul_cancel (Nat.gcd_dvd_left _ _)).symm
    have hQ : q = (q / g) * g := (Nat.div_mul_cancel (Nat.gcd_dvd_right _ _)).symm
    have hrhs : n * 1000 * p / q = n * (1000 * p / g) / (q / g) := by
      have e : n * 1000 * p = n * (1000 * p / g) * g := by
        rw [Nat.mul_assoc n 1000 p, Nat.mul_assoc n (1000 * p / g) g, ← hP]
      have key := Nat.mul_div_mul_right (n * (1000 * p / g)) (q / g) hgpos
      rw [← hQ] at key
      rw [e]
      exact key
    rw [hrhs]
    rcases Nat.eq_zero_or_pos (1000 * p / g) with hN0 | hNpos
    · simp [hN0]
    · rcases Nat.eq_zero_or_pos n with hn0 | hnpos
      · simp [hn0]
      · have hNlt : 1000 * p / g < 2 ^ 64 := by
          calc 1000 * p / g ≤ n * (1000 * p / g) := Nat.le_mul_of_pos_left _ hnpos
            _ < 2 ^ 64 := hn
        have hnlt : n < 2 ^ 64 := by
          calc n ≤ n * (1000 * p / g) := Nat.le_mul_of_pos_right _ hNpos
            _ < 2 ^ 64 := hn
        rw [Nat.mod_eq_of_lt hnlt, Nat.mod_eq_of_lt hNlt, Nat.mod_eq_of_lt hn]

/-! ## The registry and `new_handle` -/

/-- The `find?` of `handle_set_insert` can only return the pointer looked for. -/
theorem find_eq_self (s : List Ptr) (p old : Ptr)
    (h : s.find? (fun x => x == p) = some old) : old = p := by
  have := List.find?_some h
  simpa using this

/-- Inserting keeps the set when the pointer is a member and appends it otherwise; the element
designated by the returned iterator is the pointer itself. -/
theorem handle_set_insert_eq (s : List Ptr) (p : Ptr) :
    handle_set_insert s p = ((p, decide (p ∉ s)), if p ∈ s then s else s ++ [p]) := by
  unfold handle_set_insert
  cases hfind : s.find? (fun x => x == p) with
  | some old =>
    have hold : old = p := find_eq_self s p old hfind
    have hmem : p ∈ s := hold ▸ List.mem_of_find?_eq_some hfind
    simp [hold, hmem]
  | none =>
    have hmem : p ∉ s := by
      intro hp
      have := List.find?_eq_none.mp hfind p hp
      simp at this
    simp [hmem]

/-- The pointer is a member after the insertion. -/
theorem mem_handle_set_insert (s : List Ptr) (p : Ptr) : p ∈ (handle_set_insert s p).2 := by
  rw [handle_set_insert_eq]
  by_cases h : p ∈ s <;> simp [h]

/-- Members stay members across an insertion. -/
theorem mem_handle_set_insert_of_mem (s : List Ptr) (p x : Ptr) (hx : x ∈ s) :
    x ∈ (handle_set_insert s p).2 := by
  rw [handle_set_insert_eq]
  by_cases h : p ∈ s <;> simp [h, hx]

/-- The handle that `new_handle` initialises, starts and returns is the freshly made one. -/
theorem new_handle_fst {Args : Type} (H : HandleKind Args) (fresh : Ptr) (args : Args) (w : World) :
    (Loop.new_handle H fresh args w).1 = fresh := by
  unfold Loop.new_handle
  simp only [handle_set_insert_eq]
  by_cases h : fresh ∈ w.handle_set <;> simp [h]

/-- The state after `new_handle`: insertion, then `init`, then `start`. -/
theorem new_handle_snd {Args : Type} (H : HandleKind Args) (fresh : Ptr) (args : Args) (w : World) :
    (Loop.new_handle H fresh args w).2 =
      H.start fresh args (HandleBase.init H fresh
        { w with handle_set := (handle_set_insert w.handle_set fresh).2 }) := by
  have h := new_handle_fst H fresh args w
  unfold Loop.new_handle at h ⊢
  simp only at h ⊢
  rw [h]

/-- The `Timer` operations leave the registry alone. -/
theorem Timer_init_handle_set (p : Ptr) (v : World) : (Timer._init p v).handle_set = v.handle_set := rfl

/-- Storing a continuation leaves everything but `data` alone. -/
theorem set_continuation_frame (v : World) (p : Ptr) (f : Callable) :
    (v.set_continuation p f).handle_set = v.handle_set ∧
    (v.set_continuation p f).calls = v.calls ∧
    (v.set_continuation p f)._loop = v._loop ∧
    (v.set_continuation p f).async_queue = v.async_queue ∧
    (v.set_continuation p f).close_async = v.close_async := by
  unfold World.set_continuation
  cases v.data p <;> simp [World.set_data]

/-- The `Timer` operations leave the registry alone. -/
theorem Timer_start_handle_set (p : Ptr) (a : TimerArgs) (v : World) :
    (Timer.start p a v).handle_set = v.handle_set := by
  simp [Timer.start, World.log, (set_continuation_frame v p a.f).1]

/-- The calls that creating a timer adds: `uv_timer_init`, whose status is not looked at, then
`uv_timer_start` with both durations in milliseconds. -/
theorem new_handle_Timer_calls (fresh : Ptr) (a : TimerArgs) (w : World) :
    (Loop.new_handle Timer.kind fresh a w).2.calls =
      w.calls ++ [Call.uv_timer_init w._loop fresh (w.uv_timer_init_status w._loop fresh),
        Call.uv_timer_start fresh NativeCb.timer_dispatch (duration_cast_millis a.timeout)
          (duration_cast_millis (a.rep.getD Duration.zero_millis))] := by
  rw [new_handle_snd]
  simp [Timer.kind, Timer.start, World.log, HandleBase.init, HandleBase.init_loop_handle,
    Timer._init, World.set_data, (set_continuation_frame _ fresh a.f).2.1]

/-- The registry after creating a timer. -/
theorem new_handle_Timer_handle_set (fresh : Ptr) (a : TimerArgs) (w : World) :
    (Loop.new_handle Timer.kind fresh a w).2.handle_set = (handle_set_insert w.handle_set fresh).2 := by
  rw [new_handle_snd]
  simp [Timer.kind, Timer_start_handle_set, HandleBase.init, HandleBase.init_loop_handle,
    Timer._init, World.set_data, World.log]

/-- The data of a timer just created: bound to itself, armed with the callable, no close
continuation. -/
theorem new_handle_Timer_data (fresh : Ptr) (a : TimerArgs) (w : World) :
    (Loop.new_handle Timer.kind fresh a w).2.data fresh = some ⟨fresh, some a.f, none⟩ := by
  rw [new_handle_snd]
  simp [Timer.kind, Timer.start, World.log, HandleBase.init, HandleBase.init_loop_handle,
    Timer._init, World.set_data, World.set_continuation]

/-! ## Timer::start and the conversion to milliseconds -/

/-- C7, counterexample.  A timeout of `2 ^ 63` ticks of one second, held in a `uint64_t`, arms the
native timer with 0 milliseconds: the product with 1000 wraps modulo `2 ^ 64`, so the value
passed is not `floor(n * 1000 * p / q)`. -/
theorem Timer_start_wraps_counterexample :
    (Timer.start 3 ⟨Callable.user 7, ⟨2 ^ 63, ⟨1, 1⟩⟩, none⟩
        (Loop.construct false 1 2 (fun _ _ => 0))).calls
      = [Call.uv_loop_init 1, Call.uv_async_init 1 2,
         Call.uv_timer_start 3 NativeCb.timer_dispatch 0 0]
    ∧ (2 ^ 63 : Int) < 2 ^ 64
    ∧ 2 ^ 63 * 1000 * 1 / 1 ≠ 0 := by
  decide

/-- C7, amended.  For a timeout of `nt` ticks of `pt/qt` seconds and a repeat of `nr` ticks of
`pr/qr` seconds, both non-negative and held in integers of at most 64 bits, such that the tick
count times the numerator of `1000 * p / q` in lowest terms stays below `2 ^ 64`,
`Timer::start` makes one `uv_timer_start` call, passing `floor(n * 1000 * p / q)` for each
duration; when `repeat` is omitted it passes 0. -/
theorem Timer_start_passes_floor_milliseconds (self : Ptr) (f : Callable) (w : World)
    (nt pt qt nr pr qr : Nat)
    (hqt : qt < 2 ^ 63) (hnt : nt * (1000 * pt / Nat.gcd (1000 * pt) qt) < 2 ^ 64)
    (hqr : qr < 2 ^ 63) (hnr : nr * (1000 * pr / Nat.gcd (1000 * pr) qr) < 2 ^ 64) :
    (Timer.start self ⟨f, ⟨nt, ⟨pt, qt⟩⟩, some ⟨nr, ⟨pr, qr⟩⟩⟩ w).calls
      = w.calls ++ [Call.uv_timer_start self NativeCb.timer_dispatch
          (nt * 1000 * pt / qt) (nr * 1000 * pr / qr)]
    ∧ (Timer.start self ⟨f, ⟨nt, ⟨pt, qt⟩⟩, none⟩ w).calls
      = w.calls ++ [Call.uv_timer_start self NativeCb.timer_dispatch (nt * 1000 * pt / qt) 0] := by
  have ht := duration_cast_millis_exact nt pt qt hqt hnt
  have hr := duration_cast_millis_exact nr pr qr hqr hnr
  have hz : duration_cast_millis Duration.zero_millis = 0 := by decide
  constructor
  · simp [Timer.start, World.log, (set_continuation_frame w self f).2.1, ht, hr]
  · simp [Timer.start, World.log, (set_continuation_frame w self f).2.1, ht, hz]

/-- C7, witness: 1500 microseconds with a repeat of 2 seconds arm the timer with 1 and 2000. -/
theorem Timer_start_passes_floor_milliseconds_witness :
    (Timer.start 3 ⟨Callable.user 7, ⟨(1500 : Nat), ⟨1, 1000000⟩⟩, some ⟨(2 : Nat), ⟨1, 1⟩⟩⟩
        (Loop.construct false 1 2 (fun _ _ => 0))).calls
      = (Loop.construct false 1 2 (fun _ _ => 0)).calls
          ++ [Call.uv_timer_start 3 NativeCb.timer_dispatch (1500 * 1000 * 1 / 1000000) (2 * 1000 * 1 / 1)]
    ∧ (Timer.start 3 ⟨Callable.user 7, ⟨(1500 : Nat), ⟨1, 1000000⟩⟩, none⟩
        (Loop.construct false 1 2 (fun _ _ => 0))).calls
      = (Loop.construct false 1 2 (fun _ _ => 0)).calls
          ++ [Call.uv_timer_start 3 NativeCb.timer_dispatch (1500 * 1000 * 1 / 1000000) 0] :=
  Timer_start_passes_floor_milliseconds 3 (Callable.user 7) (Loop.construct false 1 2 (fun _ _ => 0))
    1500 1 1000000 2 1 1 (by decide) (by decide) (by decide) (by decide)

/-! ## The timer factories -/

/-- C8.  The overloads `timer(f, t, r)`, `timer(t, r, f)`, `timer(t, f, r)`, `repeat(r, f, t)` and
`repeat(f, r, t)` all yield the same handle and the same state as `new_handle<Timer>(f, t, r)`:
one Timer, a member of the registry, bound to itself with continuation `f`, initialised once
and started once with `t` and `r` in milliseconds.  With the last argument omitted,
`timer(f, t)` and `timer(t, f)` start it with repeat 0, `repeat(r, f)` and `repeat(f, r)`
with timeout 0. -/
theorem Loop_timer_overloads_agree (fresh : Ptr) (f : Callable) (t r : Duration) (w : World) :
    Loop.timer_f_t_r fresh f t (some r) w = Loop.new_handle Timer.kind fresh ⟨f, t, some r⟩ w
    ∧ Loop.timer_t_r_f fresh t r f w = Loop.new_handle Timer.kind fresh ⟨f, t, some r⟩ w
    ∧ Loop.timer_t_f_r fresh t f (some r) w = Loop.new_handle Timer.kind fresh ⟨f, t, some r⟩ w
    ∧ Loop.repeat_r_f_t fresh r f (some t) w = Loop.new_handle Timer.kind fresh ⟨f, t, some r⟩ w
    ∧ Loop.repeat_f_r_t fresh f r (some t) w = Loop.new_handle Timer.kind fresh ⟨f, t, some r⟩ w
    ∧ (Loop.new_handle Timer.kind fresh ⟨f, t, some r⟩ w).1 = fresh
    ∧ fresh ∈ (Loop.new_handle Timer.kind fresh ⟨f, t, some r⟩ w).2.handle_set
    ∧ (Loop.new_handle Timer.kind fresh ⟨f, t, some r⟩ w).2.handle_set
        = (if fresh ∈ w.handle_set then w.handle_set else w.handle_set ++ [fresh])
    ∧ (Loop.new_handle Timer.kind fresh ⟨f, t, some r⟩ w).2.data fresh = some ⟨fresh, some f, none⟩
    ∧ (Loop.new_handle Timer.kind fresh ⟨f, t, some r⟩ w).2.calls
        = w.calls ++ [Call.uv_timer_init w._loop fresh (w.uv_timer_init_status w._loop fresh),
            Call.uv_timer_start fresh NativeCb.timer_dispatch
              (duration_cast_millis t) (duration_cast_millis r)]
    ∧ Loop.timer_t_f_r fresh t f none w = Loop.timer_f_t_r fresh f t none w
    ∧ (Loop.timer_f_t_r fresh f t none w).2.calls
        = w.calls ++ [Call.uv_timer_init w._loop fresh (w.uv_timer_init_status w._loop fresh),
            Call.uv_timer_start fresh NativeCb.timer_dispatch (duration_cast_millis t) 0]
    ∧ Loop.repeat_r_f_t fresh r f none w = Loop.repeat_f_r_t fresh f r none w
    ∧ (Loop.repeat_f_r_t fresh f r none w).2.calls
        = w.calls ++ [Call.uv_timer_init w._loop fresh (w.uv_timer_init_status w._loop fresh),
            Call.uv_timer_start fresh NativeCb.timer_dispatch 0 (duration_cast_millis r)] := by
  have hz : duration_cast_millis Duration.zero_millis = 0 := by decide
  refine ⟨rfl, rfl, rfl, rfl, rfl, new_handle_fst _ _ _ _, ?_, ?_, new_handle_Timer_data _ _ _,
    new_handle_Timer_calls _ _ _, rfl, ?_, rfl, ?_⟩
  · rw [new_handle_Timer_handle_set]
    exact mem_handle_set_insert _ _
  · rw [new_handle_Timer_handle_set, handle_set_insert_eq]
  · simp [Loop.timer_f_t_r, new_handle_Timer_calls, hz]
  · simp [Loop.repeat_f_r_t, new_handle_Timer_calls, hz]

/-! ## The factories and the registry -/

/-- C9.  For a handle class whose `_init` and `start` do not touch the registry (it is a private
member of `Loop`), `new_handle` returns the freshly made handle; the handle is inserted into
the registry first, then `init` is called on it once and then `start` once with the caller's
arguments; and the returned handle is a member of the registry afterwards.  Every factory
(`idle`, `prepare`, `check`, `timer`, `repeat`, `async`, `signal`) is this `new_handle`. -/
theorem Loop_new_handle_registers_inits_starts {Args : Type} (H : HandleKind Args)
    (fresh : Ptr) (args : Args) (w : World)
    (hinit : ∀ p v, (H._init p v).handle_set = v.handle_set)
    (hstart : ∀ p a v, (H.start p a v).handle_set = v.handle_set) :
    (Loop.new_handle H fresh args w).1 = fresh
    ∧ fresh ∈ (handle_set_insert w.handle_set fresh).2
    ∧ (Loop.new_handle H fresh args w).2
        = H.start fresh args (HandleBase.init H fresh
            { w with handle_set := (handle_set_insert w.handle_set fresh).2 })
    ∧ (Loop.new_handle H fresh args w).1 ∈ (Loop.new_handle H fresh args w).2.handle_set
    ∧ (∀ x, x ∈ w.handle_set → x ∈ (Loop.new_handle H fresh args w).2.handle_set)
    ∧ Loop.idle H fresh args w = Loop.new_handle H fresh args w
    ∧ Loop.prepare H fresh args w = Loop.new_handle H fresh args w
    ∧ Loop.check H fresh args w = Loop.new_handle H fresh args w
    ∧ Loop.async H fresh args w = Loop.new_handle H fresh args w
    ∧ Loop.signal H fresh args w = Loop.new_handle H fresh args w
    ∧ (∀ f t r, Loop.timer_f_t_r fresh f t (some r) w
        = Loop.new_handle Timer.kind fresh ⟨f, t, some r⟩ w)
    ∧ (∀ f t r, Loop.repeat_f_r_t fresh f r (some t) w
        = Loop.new_handle Timer.kind fresh ⟨f, t, some r⟩ w) := by
  have hset : (Loop.new_handle H fresh args w).2.handle_set
      = (handle_set_insert w.handle_set fresh).2 := by
    rw [new_handle_snd, hstart]
    simp [HandleBase.init, HandleBase.init_loop_handle, hinit, World.set_data]
  refine ⟨new_handle_fst _ _ _ _, mem_handle_set_insert _ _, new_handle_snd _ _ _ _, ?_, ?_,
    rfl, rfl, rfl, rfl, rfl, fun _ _ _ => rfl, fun _ _ _ => rfl⟩
  · rw [new_handle_fst, hset]
    exact mem_handle_set_insert _ _
  · intro x hx
    rw [hset]
    exact mem_handle_set_insert_of_mem _ _ _ hx

/-- C9, witness: a timer created on a freshly constructed loop, next to the close channel. -/
theorem Loop_new_handle_registers_inits_starts_witness :
    (Loop.new_handle Timer.kind 3 ⟨Callable.user 7, ⟨10, Ratio.milli⟩, none⟩
        (Loop.construct false 1 2 (fun _ _ => 0))).1 = 3
    ∧ (Loop.new_handle Timer.kind 3 ⟨Callable.user 7, ⟨10, Ratio.milli⟩, none⟩
        (Loop.construct false 1 2 (fun _ _ => 0))).2.handle_set = [2, 3]
    ∧ (Loop.new_handle Timer.kind 3 ⟨Callable.user 7, ⟨10, Ratio.milli⟩, none⟩
        (Loop.construct false 1 2 (fun _ _ => 0))).1
      ∈ (Loop.new_handle Timer.kind 3 ⟨Callable.user 7, ⟨10, Ratio.milli⟩, none⟩
        (Loop.construct false 1 2 (fun _ _ => 0))).2.handle_set :=
  ⟨(Loop_new_handle_registers_inits_starts Timer.kind 3 ⟨Callable.user 7, ⟨10, Ratio.milli⟩, none⟩
      (Loop.construct false 1 2 (fun _ _ => 0)) Timer_init_handle_set Timer_start_handle_set).1,
   by decide,
   (Loop_new_handle_registers_inits_starts Timer.kind 3 ⟨Callable.user 7, ⟨10, Ratio.milli⟩, none⟩
      (Loop.construct false 1 2 (fun _ _ => 0)) Timer_init_handle_set Timer_start_handle_set).2.2.2.1⟩

/-! ## A failing native initialisation -/

/-- C3, counterexample.  With libuv answering the status -22 to `uv_timer_init`, `Loop::timer`
still returns the handle: the registry grows from the close channel alone to the channel and
the new timer, and `uv_timer_start` is called on the handle. -/
theorem Loop_timer_init_status_counterexample :
    (Loop.construct false 1 2 (fun _ _ => -22)).handle_set = [2]
    ∧ (Loop.timer_f_t_r 3 (Callable.user 7) ⟨10, Ratio.milli⟩ none
        (Loop.construct false 1 2 (fun _ _ => -22))).1 = 3
    ∧ (Loop.timer_f_t_r 3 (Callable.user 7) ⟨10, Ratio.milli⟩ none
        (Loop.construct false 1 2 (fun _ _ => -22))).2.handle_set = [2, 3]
    ∧ (Loop.timer_f_t_r 3 (Callable.user 7) ⟨10, Ratio.milli⟩ none
        (Loop.construct false 1 2 (fun _ _ => -22))).2.calls
      = [Call.uv_loop_init 1, Call.uv_async_init 1 2, Call.uv_timer_init 1 3 (-22),
         Call.uv_timer_start 3 NativeCb.timer_dispatch 10 0] := by
  decide

/-- C3, amended.  Whatever status the native initialisation reports, `Loop::timer` does not look
at it and does not fail: it returns the new handle, the handle is a member of the registry
(which is the registry of before with the handle inserted, earlier members kept), and after
`uv_timer_init` the handle is started with `uv_timer_start`. -/
theorem Loop_timer_ignores_init_status (fresh : Ptr) (f : Callable) (t : Duration)
    (r : Option Duration) (w : World) :
    (Loop.timer_f_t_r fresh f t r w).1 = fresh
    ∧ fresh ∈ (Loop.timer_f_t_r fresh f t r w).2.handle_set
    ∧ (Loop.timer_f_t_r fresh f t r w).2.handle_set
        = (if fresh ∈ w.handle_set then w.handle_set else w.handle_set ++ [fresh])
    ∧ (Loop.timer_f_t_r fresh f t r w).2.calls
        = w.calls ++ [Call.uv_timer_init w._loop fresh (w.uv_timer_init_status w._loop fresh),
            Call.uv_timer_start fresh NativeCb.timer_dispatch (duration_cast_millis t)
              (duration_cast_millis (r.getD Duration.zero_millis))] := by
  unfold Loop.timer_f_t_r
  refine ⟨new_handle_fst _ _ _ _, ?_, ?_, ?_⟩
  · rw [new_handle_Timer_handle_set]
    exact mem_handle_set_insert _ _
  · rw [new_handle_Timer_handle_set, handle_set_insert_eq]
  · rw [new_handle_Timer_calls]
    simp

/-! ## Handle::close and the close channel -/

/-- Storing a close continuation leaves everything but `data` alone. -/
theorem set_secondary_continuation_frame (v : World) (p : Ptr) (f : Callable) :
    (v.set_secondary_continuation p f).handle_set = v.handle_set ∧
    (v.set_secondary_continuation p f).calls = v.calls ∧
    (v.set_secondary_continuation p f)._loop = v._loop ∧
    (v.set_secondary_continuation p f).async_queue = v.async_queue ∧
    (v.set_secondary_continuation p f).close_async = v.close_async ∧
    (v.set_secondary_continuation p f).stopped = v.stopped ∧
    (v.set_secondary_continuation p f).external = v.external ∧
    (v.set_secondary_continuation p f).next_token = v.next_token ∧
    (v.set_secondary_continuation p f).uv_timer_init_status = v.uv_timer_init_status := by
  unfold World.set_secondary_continuation
  cases v.data p <;> simp [World.set_data]

/-- Storing a close continuation changes the data of no other handle. -/
theorem set_secondary_continuation_data_ne (v : World) (p x : Ptr) (f : Callable) (hx : x ≠ p) :
    (v.set_secondary_continuation p f).data x = v.data x := by
  unfold World.set_secondary_continuation
  cases v.data p <;> simp [World.set_data, hx]

/-- The data of the handle after storing a close continuation. -/
theorem set_secondary_continuation_data_self (v : World) (p : Ptr) (f : Callable) :
    (v.set_secondary_continuation p f).data p =
      some (match v.data p with
        | some d => { d with secondary_continuation := some f }
        | none => ⟨p, none, some f⟩) := by
  unfold World.set_secondary_continuation
  cases v.data p <;> simp [World.set_data]

/-- The handle holds the close continuation that was stored. -/
theorem set_secondary_continuation_stored (v : World) (p : Ptr) (f : Callable) :
    ∃ d, (v.set_secondary_continuation p f).data p = some d
      ∧ d.secondary_continuation = some f := by
  rw [set_secondary_continuation_data_self]
  cases v.data p <;> exact ⟨_, rfl, rfl⟩

/-- Storing a close continuation keeps the handler of every channel. -/
theorem set_secondary_continuation_keeps_handler (v : World) (p c : Ptr) (f g : Callable)
    (hc : ∃ d, v.data c = some d ∧ d.continuation = some g) :
    ∃ d, (v.set_secondary_continuation p f).data c = some d ∧ d.continuation = some g := by
  obtain ⟨d, hd, hg⟩ := hc
  by_cases hcp : c = p
  · subst hcp
    rw [set_secondary_continuation_data_self, hd]
    exact ⟨_, rfl, hg⟩
  · rw [set_secondary_continuation_data_ne v p c f hcp]
    exact ⟨d, hd, hg⟩

/-- What `close` returns once the loop has its close channel. -/
theorem Handle_close_eq (w : World) (h ch : Ptr) (f : Callable) (hch : w.close_async = some ch) :
    Handle.close h f w = some (w.next_token, w.after_close h ch f) := by
  have hfr := set_secondary_continuation_frame w h f
  unfold Handle.close
  simp only [hfr.2.2.2.2.1, hch, Async.send, hfr.2.2.2.1, hfr.2.2.2.2.2.2.2.1, World.after_close]

/-- Delivering the oldest payload of a channel that has the handler of `Loop::_init`. -/
theorem Async_deliver_close_handler (w : World) (it : Pending) (rest : List Pending)
    (hq : w.async_queue = it :: rest)
    (hh : ∃ d, w.data it.channel = some d ∧ d.continuation = some Callable.loop_close_handler) :
    Async.deliver w = some
      { w with
        async_queue := rest,
        calls := w.calls ++ [Call.uv_close it.payload.1 it.payload.2] } := by
  obtain ⟨d, hd, hg⟩ := hh
  unfold Async.deliver
  simp [hq, hd, hg, Callable.handle, Loop.close_handler, World.log]

/-- Draining a queue of close requests performs one `uv_close` per request, in order. -/
theorem Async_drain_items_close_handler (items : List Pending) :
    ∀ w : World, w.async_queue = items →
      (∀ it ∈ items, ∃ d, w.data it.channel = some d ∧
        d.continuation = some Callable.loop_close_handler) →
      Async.drain_items items w = some
        { w with
          async_queue := [],
          calls := w.calls ++ items.map (fun it => Call.uv_close it.payload.1 it.payload.2) } := by
  induction items with
  | nil =>
    intro w hq _
    simp only [Async.drain_items, List.map_nil, List.append_nil]
    rw [← hq]
  | cons it rest ih =>
    intro w hq hh
    have hd := Async_deliver_close_handler w it rest hq (hh it (List.mem_cons_self _ _))
    simp only [Async.drain_items, hd, Option.bind]
    have step := ih
      { w with
        async_queue := rest,
        calls := w.calls ++ [Call.uv_close it.payload.1 it.payload.2] }
      rfl (fun x hx => hh x (List.mem_cons_of_mem _ hx))
    rw [step]
    simp [List.append_assoc]

/-- Draining all waiting close requests. -/
theorem Async_drain_close_handler (w : World)
    (hh : ∀ it ∈ w.async_queue, ∃ d, w.data it.channel = some d ∧
      d.continuation = some Callable.loop_close_handler) :
    Async.drain w = some
      { w with
        async_queue := [],
        calls := w.calls ++ w.async_queue.map (fun it => Call.uv_close it.payload.1 it.payload.2) } :=
  Async_drain_items_close_handler w.async_queue w rfl hh

/-- The loop has its close channel, with the `uv_close` handler, once `Loop::_init` has run. -/
theorem Loop_init_installs_close_handler (fresh : Ptr) (v : World) :
    (Loop._init fresh v).close_async = some fresh
    ∧ ∃ d, (Loop._init fresh v).data fresh = some d
        ∧ d.continuation = some Callable.loop_close_handler := by
  unfold Loop._init Loop.async
  simp only [new_handle_fst, new_handle_snd]
  refine ⟨trivial, ?_⟩
  simp [Async.kind, Async.start, Async._init, HandleBase.init, HandleBase.init_loop_handle,
    World.set_continuation, World.set_data, World.log]

/-- Draining after a `close`: the requests already waiting are served, then the new one. -/
theorem Async_drain_after_close (w : World) (h ch : Ptr) (f : Callable)
    (hhandler : ∃ d, w.data ch = some d ∧ d.continuation = some Callable.loop_close_handler)
    (hqueue : ∀ it ∈ w.async_queue, it.channel = ch) :
    Async.drain (w.after_close h ch f) = some
      { w.after_close h ch f with
        async_queue := [],
        calls := w.calls ++ w.async_queue.map (fun it => Call.uv_close it.payload.1 it.payload.2)
          ++ [Call.uv_close h NativeCb.close_secondary] } := by
  have hk := set_secondary_continuation_keeps_handler w h ch f Callable.loop_close_handler hhandler
  have hfr := set_secondary_continuation_frame w h f
  rw [Async_drain_close_handler]
  · simp [World.after_close, hfr.2.1]
  · intro it hit
    have hchan : it.channel = ch := by
      simp only [World.after_close, List.mem_append, List.mem_singleton] at hit
      rcases hit with hit | hit
      · exact hqueue it hit
      · rw [hit]
    rw [hchan]
    exact hk

/-- C1.  On a loop that has its close channel `ch` with the handler of `Loop::_init` (both are
set up by `Loop::_init`), `close(f)` on a handle `h` makes no native call at all: it stores `f`
as the secondary continuation of `h`, queues exactly one request `(h, native close callback)`
on the channel, and changes nothing else.  The `uv_close` calls are made when the channel is
drained, by the handler, one per request and with the pair that was sent, the new request
last. -/
theorem Handle_close_defers_native_close (w : World) (h ch : Ptr) (f : Callable)
    (hch : w.close_async = some ch)
    (hhandler : ∃ d, w.data ch = some d ∧ d.continuation = some Callable.loop_close_handler)
    (hqueue : ∀ it ∈ w.async_queue, it.channel = ch) :
    (∀ fresh v, (Loop._init fresh v).close_async = some fresh
      ∧ ∃ d, (Loop._init fresh v).data fresh = some d
          ∧ d.continuation = some Callable.loop_close_handler)
    ∧ ∃ w1 w2,
      Handle.close h f w = some (w.next_token, w1)
      ∧ w1.calls = w.calls
      ∧ w1.async_queue = w.async_queue ++ [⟨ch, (h, NativeCb.close_secondary), w.next_token⟩]
      ∧ (∃ d, w1.data h = some d ∧ d.secondary_continuation = some f)
      ∧ (∀ d0, w.data h = some d0 → w1.data h = some { d0 with secondary_continuation := some f })
      ∧ (∀ x, x ≠ h → w1.data x = w.data x)
      ∧ w1.handle_set = w.handle_set
      ∧ w1.stopped = w.stopped
      ∧ w1.close_async = w.close_async
      ∧ w1._loop = w._loop
      ∧ w1.external = w.external
      ∧ w1.uv_timer_init_status = w.uv_timer_init_status
      ∧ Async.drain w1 = some w2
      ∧ w2.calls = w.calls ++ w.async_queue.map (fun it => Call.uv_close it.payload.1 it.payload.2)
          ++ [Call.uv_close h NativeCb.close_secondary]
      ∧ w2.async_queue = [] := by
  have hfr := set_secondary_continuation_frame w h f
  refine ⟨Loop_init_installs_close_handler, w.after_close h ch f, _, Handle_close_eq w h ch f hch,
    hfr.2.1, rfl, ?_, ?_, ?_, hfr.1, hfr.2.2.2.2.2.1, hfr.2.2.2.2.1, hfr.2.2.1,
    hfr.2.2.2.2.2.2.1, hfr.2.2.2.2.2.2.2.2, Async_drain_after_close w h ch f hhandler hqueue,
    rfl, rfl⟩
  · exact set_secondary_continuation_stored w h f
  · intro d0 hd0
    have hd := set_secondary_continuation_data_self w h f
    simpa [World.after_close, hd0] using hd
  · intro x hx
    exact set_secondary_continuation_data_ne w h x f hx

/-- C1, witness: closing the timer 3 of a freshly constructed loop whose close channel is 2. -/
theorem Handle_close_defers_native_close_witness :
    ∃ w1 w2,
      Handle.close 3 (Callable.user 8)
        (Loop.timer_f_t_r 3 (Callable.user 7) ⟨10, Ratio.milli⟩ none
          (Loop.construct false 1 2 (fun _ _ => 0))).2 = some (0, w1)
      ∧ w1.async_queue = [⟨2, (3, NativeCb.close_secondary), 0⟩]
      ∧ w1.calls = [Call.uv_loop_init 1, Call.uv_async_init 1 2, Call.uv_timer_init 1 3 0,
          Call.uv_timer_start 3 NativeCb.timer_dispatch 10 0]
      ∧ Async.drain w1 = some w2
      ∧ w2.calls = [Call.uv_loop_init 1, Call.uv_async_init 1 2, Call.uv_timer_init 1 3 0,
          Call.uv_timer_start 3 NativeCb.timer_dispatch 10 0,
          Call.uv_close 3 NativeCb.close_secondary] := by
  obtain ⟨_, w1, w2, h1, h2, h3, _, _, _, _, _, _, _, _, _, h4, h5, _⟩ :=
    Handle_close_defers_native_close
      (Loop.timer_f_t_r 3 (Callable.user 7) ⟨10, Ratio.milli⟩ none
        (Loop.construct false 1 2 (fun _ _ => 0))).2
      3 2 (Callable.user 8) (by decide) ⟨⟨2, some Callable.loop_close_handler, none⟩, by decide, rfl⟩
      (by decide)
  exact ⟨w1, w2, h1, h3, h2, h4, h5⟩

/-! ## Closing twice -/

/-- C2, counterexample.  Two `close` calls on the timer 3, with nothing delivered in between, leave
two requests for handle 3 on the close channel, return the distinct tokens 0 and 1, and the
drain then makes two `uv_close` calls on the handle. -/
theorem Handle_close_twice_counterexample :
    ((Handle.close 3 (Callable.user 8)
        (Loop.timer_f_t_r 3 (Callable.user 7) ⟨10, Ratio.milli⟩ none
          (Loop.construct false 1 2 (fun _ _ => 0))).2).bind
      (fun r1 => (Handle.close 3 (Callable.user 8) r1.2).bind
        (fun r2 => (Async.drain r2.2).map
          (fun v => (r1.1, r2.1, r2.2.async_queue, v.calls)))))
    = some (0, 1,
        [⟨2, (3, NativeCb.close_secondary), 0⟩, ⟨2, (3, NativeCb.close_secondary), 1⟩],
        [Call.uv_loop_init 1, Call.uv_async_init 1 2, Call.uv_timer_init 1 3 0,
         Call.uv_timer_start 3 NativeCb.timer_dispatch 10 0,
         Call.uv_close 3 NativeCb.close_secondary, Call.uv_close 3 NativeCb.close_secondary]) := by
  decide

/-- C2, amended.  `close` keeps no closing state: called twice on a handle before the first
close has completed, each call queues its own request on the close channel and returns its
own token, the second call replaces the secondary continuation, and draining the channel
makes one `uv_close` call per request, so two for the handle. -/
theorem Handle_close_twice_queues_two_requests (w : World) (h ch : Ptr) (f g : Callable)
    (hch : w.close_async = some ch)
    (hhandler : ∃ d, w.data ch = some d ∧ d.continuation = some Callable.loop_close_handler)
    (hqueue : ∀ it ∈ w.async_queue, it.channel = ch) :
    ∃ w1 w2 w3,
      Handle.close h f w = some (w.next_token, w1)
      ∧ Handle.close h g w1 = some (w.next_token + 1, w2)
      ∧ w2.async_queue = w.async_queue ++
          [⟨ch, (h, NativeCb.close_secondary), w.next_token⟩,
           ⟨ch, (h, NativeCb.close_secondary), w.next_token + 1⟩]
      ∧ (∃ d, w2.data h = some d ∧ d.secondary_continuation = some g)
      ∧ w2.calls = w.calls
      ∧ Async.drain w2 = some w3
      ∧ w3.calls = w.calls ++ w.async_queue.map (fun it => Call.uv_close it.payload.1 it.payload.2)
          ++ [Call.uv_close h NativeCb.close_secondary, Call.uv_close h NativeCb.close_secondary] := by
  have hfr := set_secondary_continuation_frame w h f
  have hfr1 := set_secondary_continuation_frame (w.after_close h ch f) h g
  have hch1 : (w.after_close h ch f).close_async = some ch := by
    simpa [World.after_close, hfr.2.2.2.2.1] using hch
  have hhandler1 : ∃ d, (w.after_close h ch f).data ch = some d
      ∧ d.continuation = some Callable.loop_close_handler :=
    set_secondary_continuation_keeps_handler w h ch f Callable.loop_close_handler hhandler
  have hq1 : (w.after_close h ch f).async_queue
      = w.async_queue ++ [⟨ch, (h, NativeCb.close_secondary), w.next_token⟩] := rfl
  have hqueue1 : ∀ it ∈ (w.after_close h ch f).async_queue, it.channel = ch := by
    intro it hit
    rw [hq1, List.mem_append, List.mem_singleton] at hit
    rcases hit with hit | hit
    · exact hqueue it hit
    · rw [hit]
  have hcalls1 : (w.after_close h ch f).calls = w.calls := hfr.2.1
  have htok1 : (w.after_close h ch f).next_token = w.next_token + 1 := rfl
  refine ⟨w.after_close h ch f, (w.after_close h ch f).after_close h ch g, _,
    Handle_close_eq w h ch f hch, ?_, ?_, ?_, ?_,
    Async_drain_after_close (w.after_close h ch f) h ch g hhandler1 hqueue1, ?_⟩
  · rw [← htok1]
    exact Handle_close_eq _ h ch g hch1
  · show (w.after_close h ch f).async_queue ++ [_] = _
    rw [hq1, htok1, List.append_assoc]
    rfl
  · exact set_secondary_continuation_stored (w.after_close h ch f) h g
  · exact hfr1.2.1.trans hcalls1
  · show (w.after_close h ch f).calls ++ _ ++ _ = _
    rw [hcalls1, hq1]
    simp [List.append_assoc]

/-- C2, witness: the timer 3 of a freshly constructed loop, closed twice. -/
theorem Handle_close_twice_queues_two_requests_witness :
    ∃ w1 w2 w3,
      Handle.close 3 (Callable.user 8)
        (Loop.timer_f_t_r 3 (Callable.user 7) ⟨10, Ratio.milli⟩ none
          (Loop.construct false 1 2 (fun _ _ => 0))).2 = some (0, w1)
      ∧ Handle.close 3 (Callable.user 9) w1 = some (1, w2)
      ∧ w2.async_queue =
          [⟨2, (3, NativeCb.close_secondary), 0⟩, ⟨2, (3, NativeCb.close_secondary), 1⟩]
      ∧ Async.drain w2 = some w3 := by
  obtain ⟨w1, w2, w3, h1, h2, h3, _, _, h4, _⟩ :=
    Handle_close_twice_queues_two_requests
      (Loop.timer_f_t_r 3 (Callable.user 7) ⟨10, Ratio.milli⟩ none
        (Loop.construct false 1 2 (fun _ _ => 0))).2
      3 2 (Callable.user 8) (Callable.user 9) (by decide)
      ⟨⟨2, some Callable.loop_close_handler, none⟩, by decide, rfl⟩ (by decide)
  exact ⟨w1, w2, w3, h1, h2, h3, h4⟩

/-! ## The registry after a close has completed -/

/-- C4, counterexample.  The timer 3 is closed, the close channel is drained (`uv_close`) and the
native close callback runs the close continuation 8 on the handle: the close has completed,
and the registry still holds the handle 3 next to the close channel 2. -/
theorem registry_after_close_counterexample :
    ((Handle.close 3 (Callable.user 8)
        (Loop.timer_f_t_r 3 (Callable.user 7) ⟨10, Ratio.milli⟩ none
          (Loop.construct false 1 2 (fun _ _ => 0))).2).bind
      (fun r => (Async.drain r.2).bind (Handle.close_cb 3))).map
        (fun v => (v.calls, v.handle_set, decide (3 ∈ v.handle_set)))
    = some ([Call.uv_loop_init 1, Call.uv_async_init 1 2, Call.uv_timer_init 1 3 0,
         Call.uv_timer_start 3 NativeCb.timer_dispatch 10 0,
         Call.uv_close 3 NativeCb.close_secondary, Call.invoke 8 3], [2, 3], true) := by
  decide

/-- C4, amended.  Nothing on the close path touches the registry: for a handle `h` that is a
member of it, after `close(f)`, the drain of the close channel (which makes the `uv_close`
call for `h`) and the run of the native close callback (which executes `f` on the handle),
the registry is what it was before `close` and `h` is still a member. -/
theorem registry_keeps_handle_after_close (w : World) (h ch : Ptr) (id : Nat) (d : HandleData)
    (hch : w.close_async = some ch)
    (hhandler : ∃ c, w.data ch = some c ∧ c.continuation = some Callable.loop_close_handler)
    (hqueue : ∀ it ∈ w.async_queue, it.channel = ch)
    (hdata : w.data h = some d)
    (hmem : h ∈ w.handle_set) :
    ∃ w1 w2 w3,
      Handle.close h (Callable.user id) w = some (w.next_token, w1)
      ∧ Async.drain w1 = some w2
      ∧ Call.uv_close h NativeCb.close_secondary ∈ w2.calls
      ∧ Handle.close_cb h w2 = some w3
      ∧ w3.calls = w2.calls ++ [Call.invoke id d.self]
      ∧ w3.handle_set = w.handle_set
      ∧ h ∈ w3.handle_set := by
  have hfr := set_secondary_continuation_frame w h (Callable.user id)
  have hd := set_secondary_continuation_data_self w h (Callable.user id)
  rw [hdata] at hd
  have hset : (w.after_close h ch (Callable.user id)).handle_set = w.handle_set := hfr.1
  have hcb : Handle.close_cb h
      { w.after_close h ch (Callable.user id) with
        async_queue := [],
        calls := w.calls ++ w.async_queue.map (fun it => Call.uv_close it.payload.1 it.payload.2)
          ++ [Call.uv_close h NativeCb.close_secondary] }
      = some (World.log
          { w.after_close h ch (Callable.user id) with
            async_queue := [],
            calls := w.calls ++ w.async_queue.map (fun it => Call.uv_close it.payload.1 it.payload.2)
              ++ [Call.uv_close h NativeCb.close_secondary] }
          (Call.invoke id d.self)) := by
    unfold Handle.close_cb
    simp only [World.after_close, hd]
  refine ⟨_, _, _, Handle_close_eq w h ch _ hch,
    Async_drain_after_close w h ch _ hhandler hqueue, ?_, hcb, rfl, hset, ?_⟩
  · simp
  · show h ∈ (w.after_close h ch (Callable.user id)).handle_set
    rw [hset]
    exact hmem

/-- C4, witness: the timer 3 of a freshly constructed loop, closed with continuation 8. -/
theorem registry_keeps_handle_after_close_witness :
    ∃ w1 w2 w3,
      Handle.close 3 (Callable.user 8)
        (Loop.timer_f_t_r 3 (Callable.user 7) ⟨10, Ratio.milli⟩ none
          (Loop.construct false 1 2 (fun _ _ => 0))).2 = some (0, w1)
      ∧ Async.drain w1 = some w2
      ∧ Handle.close_cb 3 w2 = some w3
      ∧ w3.handle_set = [2, 3]
      ∧ 3 ∈ w3.handle_set := by
  obtain ⟨w1, w2, w3, h1, h2, _, h3, _, h4, h5⟩ :=
    registry_keeps_handle_after_close
      (Loop.timer_f_t_r 3 (Callable.user 7) ⟨10, Ratio.milli⟩ none
        (Loop.construct false 1 2 (fun _ _ => 0))).2
      3 2 8 ⟨3, some (Callable.user 7), none⟩ (by decide)
      ⟨⟨2, some Callable.loop_close_handler, none⟩, by decide, rfl⟩ (by decide) (by decide)
      (by decide)
  exact ⟨w1, w2, w3, h1, h2, h3, h4, h5⟩

/-! ## Loop::run_forever -/

/-- One iteration of the loop of `run_forever` whose `uv_run` returns `r` without `stop()` being
invoked: `uv_run`, then a sleep when `r` is 0, and the loop goes on. -/
theorem run_forever_loop_step (delay : Nat) (r : Int) (rest : List RunOutcome) (w : World)
    (hw : w.stopped = false) :
    Loop.run_forever_loop delay (⟨r, false⟩ :: rest) w =
      Loop.run_forever_loop delay rest
        { w with
          stopped := false,
          calls := w.calls ++ (Call.uv_run w._loop uv_run_mode.UV_RUN_DEFAULT r :: (if r = 0 then [Call.sleep_for delay] else [])) } := by
  by_cases hr : r = 0 <;> simp [Loop.run_forever_loop, hw, Loop.run, World.log, hr]

/-- The iteration in which `stop()` is invoked is the last one. -/
theorem run_forever_loop_last (delay : Nat) (r : Int) (rest : List RunOutcome) (w : World)
    (hw : w.stopped = false) :
    Loop.run_forever_loop delay (⟨r, true⟩ :: rest) w = some
      { w with
        stopped := true,
        calls := w.calls ++ ([Call.uv_run w._loop uv_run_mode.UV_RUN_DEFAULT r, Call.uv_stop w._loop]
          ++ (if r = 0 then [Call.sleep_for delay] else [])) } := by
  by_cases hr : r = 0 <;>
    cases rest <;> simp [Loop.run_forever_loop, hw, Loop.run, Loop.stop, World.log, hr]

/-- The loop of `run_forever` over runs without `stop()`, then one with. -/
theorem run_forever_loop_until_stop (delay : Nat) (last : Int) (rest : List RunOutcome)
    (results : List Int) :
    ∀ w : World, w.stopped = false →
      Loop.run_forever_loop delay
          (results.map (fun r => (⟨r, false⟩ : RunOutcome)) ++ ⟨last, true⟩ :: rest) w = some
        { w with
          stopped := true,
          calls := w.calls
            ++ results.flatMap
                (fun r => Call.uv_run w._loop uv_run_mode.UV_RUN_DEFAULT r :: (if r = 0 then [Call.sleep_for delay] else []))
            ++ ([Call.uv_run w._loop uv_run_mode.UV_RUN_DEFAULT last, Call.uv_stop w._loop]
                ++ (if last = 0 then [Call.sleep_for delay] else [])) } := by
  induction results with
  | nil =>
    intro w hw
    simp only [List.map_nil, List.nil_append, List.flatMap_nil, List.append_nil]
    exact run_forever_loop_last delay last rest w hw
  | cons r rs ih =>
    intro w hw
    simp only [List.map_cons, List.cons_append]
    rw [run_forever_loop_step delay r _ w hw, ih _ rfl]
    simp [List.append_assoc]

/-- The loop of `run_forever` never ends by itself: without `stop()` it uses up any script. -/
theorem run_forever_loop_keeps_running (delay : Nat) (results : List Int) :
    ∀ w : World, w.stopped = false →
      Loop.run_forever_loop delay (results.map (fun r => (⟨r, false⟩ : RunOutcome))) w = none := by
  induction results with
  | nil =>
    intro w hw
    simp [Loop.run_forever_loop, hw]
  | cons r rs ih =>
    intro w hw
    simp only [List.map_cons]
    rw [run_forever_loop_step delay r _ w hw]
    exact ih _ rfl

/-- The iterations without `stop()` contain one `uv_run` call each. -/
theorem count_uv_run_iterations (delay : Nat) (loop : Ptr) (results : List Int) :
    (results.flatMap
      (fun r => Call.uv_run loop uv_run_mode.UV_RUN_DEFAULT r :: (if r = 0 then [Call.sleep_for delay] else []))).countP
        Call.is_uv_run = results.length := by
  induction results with
  | nil => rfl
  | cons r rs ih =>
    rw [List.flatMap_cons, List.countP_append, ih]
    by_cases hr : r = 0 <;> simp [hr, Call.is_uv_run, Nat.add_comm]

/-- C10.  Let the successive `uv_run` calls return `results` without `stop()` being invoked, and
let the next one return `last` with `stop()` invoked during it.  Then `run_forever(delay)`
returns, whatever the runs after that would do: it has called `uv_run` once per entry of
`results` and once more, has slept `delay` after exactly the calls that returned 0, and has
made no call after the one during which `stop()` was invoked (apart from the sleep that
follows it if it returned 0).  As long as `stop()` is not invoked it keeps calling `run`. -/
theorem Loop_run_forever_runs_until_stop (delay : Nat) (results : List Int) (last : Int)
    (rest : List RunOutcome) (w : World) :
    (∃ w1, Loop.run_forever delay
          (results.map (fun r => (⟨r, false⟩ : RunOutcome)) ++ ⟨last, true⟩ :: rest) w = some w1
      ∧ w1.stopped = true
      ∧ w1.calls = w.calls
          ++ results.flatMap
              (fun r => Call.uv_run w._loop uv_run_mode.UV_RUN_DEFAULT r :: (if r = 0 then [Call.sleep_for delay] else []))
          ++ ([Call.uv_run w._loop uv_run_mode.UV_RUN_DEFAULT last, Call.uv_stop w._loop]
              ++ (if last = 0 then [Call.sleep_for delay] else []))
      ∧ (w1.calls.drop w.calls.length).countP Call.is_uv_run = results.length + 1
      ∧ w1.handle_set = w.handle_set)
    ∧ Loop.run_forever delay (results.map (fun r => (⟨r, false⟩ : RunOutcome))) w = none := by
  constructor
  · refine ⟨_, run_forever_loop_until_stop delay last rest results { w with stopped := false } rfl,
      rfl, rfl, ?_, rfl⟩
    simp only [List.append_assoc, List.drop_left, List.countP_append,
      count_uv_run_iterations]
    by_cases hl : last = 0 <;> simp [hl, Call.is_uv_run]
  · exact run_forever_loop_keeps_running delay results { w with stopped := false } rfl

/-! ## Loop::print_handles -/

/-- The flag character: the letter when the masked flags are nonzero, a dash otherwise. -/
theorem flag_char_R (x : Nat) : c_subscript "R-" (c_not x) = if x ≠ 0 then 'R' else '-' := by
  unfold c_not
  by_cases h : x = 0 <;> simp [h] <;> rfl

/-- The flag character: the letter when the masked flags are nonzero, a dash otherwise. -/
theorem flag_char_A (x : Nat) : c_subscript "A-" (c_not x) = if x ≠ 0 then 'A' else '-' := by
  unfold c_not
  by_cases h : x = 0 <;> simp [h] <;> rfl

/-- The flag character: the letter when the masked flags are nonzero, a dash otherwise. -/
theorem flag_char_I (x : Nat) : c_subscript "I-" (c_not x) = if x ≠ 0 then 'I' else '-' := by
  unfold c_not
  by_cases h : x = 0 <;> simp [h] <;> rfl

/-- With `only_active` set the test of `print_handles` looks at bit 0 of the flags, whatever the
value of the active bit. -/
theorem print_handles_selects_only_active (fl : HandleFlags) (h : uv_handle_t)
    (hfl : fl.UV__HANDLE_ACTIVE ≠ 0) :
    print_handles_selects fl true h = decide (h.flags % 2 = 1) := by
  unfold print_handles_selects
  simp only [hfl, Bool.not_true, Bool.false_or, ne_eq, not_false_eq_true, if_true,
    Nat.and_one_is_mod]
  rcases Nat.mod_two_eq_zero_or_one h.flags with h0 | h1
  · simp [h0]
  · simp [h1]

/-- Without `only_active` every handle passes the test of `print_handles`. -/
theorem print_handles_selects_all (fl : HandleFlags) (h : uv_handle_t) :
    print_handles_selects fl false h = true := by
  simp [print_handles_selects]

/-- An insertion at field width 0 appends the text as it is. -/
theorem insert_width_zero (buf : List Char) (fill : Char) (left : Bool) (text : List Char) :
    OStream.insert ⟨buf, 0, fill, left⟩ text = ⟨buf ++ text, 0, fill, left⟩ := by
  cases left <;> simp [OStream.insert]

/-- An insertion into a left-adjusted stream pads the text on the right up to the width. -/
theorem insert_left (buf : List Char) (n : Nat) (fill : Char) (text : List Char) :
    OStream.insert ⟨buf, n, fill, true⟩ text
      = ⟨buf ++ (text ++ List.replicate (n - text.length) fill), 0, fill, true⟩ := by
  simp [OStream.insert]

/-- The line written for one handle on a stream whose field width is 0. -/
theorem print_handles_line_eq (fl : HandleFlags) (map : List (Nat × String))
    (show_ptr : Ptr → List Char) (buf : List Char) (fill : Char) (left : Bool) (h : uv_handle_t) :
    print_handles_line fl map show_ptr ⟨buf, 0, fill, left⟩ h =
      ⟨buf ++ (['[', (if h.flags &&& fl.UV__HANDLE_REF ≠ 0 then 'R' else '-'),
                (if h.flags &&& fl.UV__HANDLE_ACTIVE ≠ 0 then 'A' else '-'),
                (if h.flags &&& fl.UV__HANDLE_INTERNAL ≠ 0 then 'I' else '-'), ']', ' ']
          ++ ((print_handles_type map h.type).toList
              ++ List.replicate (8 - (print_handles_type map h.type).length) fill)
          ++ [' ', '0', 'x'] ++ show_ptr h.addr ++ ['\n']),
       0, fill, true⟩ := by
  simp only [print_handles_line, OStream.setw, OStream.set_left, OStream.endl,
    flag_char_R, flag_char_A, flag_char_I, insert_width_zero, insert_left]
  simp only [List.append_assoc, List.cons_append, List.nil_append, String.toList,
    Nat.zero_sub, List.replicate_zero]
  rfl

/-- C5, the failing input.  On unix, with `only_active` set: the handle with flags `0x6000` has
its active bit `0x4000` set and gets no line, the handle with flags `0x2001` has the active
bit clear and gets a line. -/
theorem print_handles_only_active_failing_input :
    (0x6000 &&& HandleFlags.unix.UV__HANDLE_ACTIVE ≠ 0
      ∧ (Loop.print_handles HandleFlags.unix UV_HANDLE_TYPE_MAP hex_digits
          [⟨0x6000, 13, 255⟩] ⟨[], 0, ' ', false⟩ true).buf = [])
    ∧ (0x2001 &&& HandleFlags.unix.UV__HANDLE_ACTIVE = 0
      ∧ (Loop.print_handles HandleFlags.unix UV_HANDLE_TYPE_MAP hex_digits
          [⟨0x2001, 13, 255⟩] ⟨[], 0, ' ', false⟩ true).buf = "[R--] timer    0xff\n".toList) := by
  decide

/-- C6, counterexample.  For a handle of a type that the table does not list the name written is
`<unknown>`, nine characters long: the field is not cut to 8 characters. -/
theorem print_handles_unknown_type_counterexample :
    (Loop.print_handles HandleFlags.unix UV_HANDLE_TYPE_MAP hex_digits
        [⟨0x2000, 0, 255⟩] ⟨[], 0, ' ', false⟩ false).buf = "[R--] <unknown> 0xff\n".toList
    ∧ "<unknown>".length = 9
    ∧ (print_handles_type UV_HANDLE_TYPE_MAP 0).length ≠ 8 := by
  decide

/-- C6, amended.  On a stream whose field width is 0, `print_handles` appends, for each handle
that passes its test and in queue order, the line `[` f1 f2 f3 `] ` name padding ` 0x` id
newline: f1 is `R` if the reference flag is set and `-` otherwise, f2 is `A` or `-` for the
active flag, f3 is `I` or `-` for the internal flag; name is the whole type name (the table
entry, or `<unknown>` for a type not in the table), left-justified and followed by fill
characters up to a width of 8, so the field has 8 characters or the length of the name if
that is more; id is the stream's rendering of the handle's address. -/
theorem print_handles_line_format (fl : HandleFlags) (map : List (Nat × String))
    (show_ptr : Ptr → List Char) (handle_queue : List uv_handle_t) (buf : List Char)
    (fill : Char) (left only_active : Bool) :
    (Loop.print_handles fl map show_ptr handle_queue ⟨buf, 0, fill, left⟩ only_active).buf
      = buf ++ (handle_queue.filter (print_handles_selects fl only_active)).flatMap (fun h =>
          ['[', (if h.flags &&& fl.UV__HANDLE_REF ≠ 0 then 'R' else '-'),
                (if h.flags &&& fl.UV__HANDLE_ACTIVE ≠ 0 then 'A' else '-'),
                (if h.flags &&& fl.UV__HANDLE_INTERNAL ≠ 0 then 'I' else '-'), ']', ' ']
          ++ ((print_handles_type map h.type).toList
              ++ List.replicate (8 - (print_handles_type map h.type).length) fill)
          ++ [' ', '0', 'x'] ++ show_ptr h.addr ++ ['\n'])
    ∧ (∀ t, ((print_handles_type map t).toList
          ++ List.replicate (8 - (print_handles_type map t).length) fill).length
        = max 8 (print_handles_type map t).length)
    ∧ (∀ t lc, map.lookup t = some lc → print_handles_type map t = lc)
    ∧ (∀ t, map.lookup t = none → print_handles_type map t = "<unknown>") := by
  refine ⟨?_, ?_, ?_, ?_⟩
  · induction handle_queue generalizing buf left with
    | nil => simp [Loop.print_handles]
    | cons h hs ih =>
      unfold Loop.print_handles at ih ⊢
      rw [List.foldl_cons, List.filter_cons]
      by_cases hsel : print_handles_selects fl only_active h = true
      · simp only [hsel, if_true, print_handles_line_eq, ih, List.flatMap_cons, List.append_assoc]
      · rw [Bool.not_eq_true] at hsel
        simp only [hsel, Bool.false_eq_true, if_false, ih]
  · intro t
    have hlen : (print_handles_type map t).toList.length = (print_handles_type map t).length := rfl
    rw [List.length_append, List.length_replicate, hlen]
    omega
  · intro t lc hlc
    simp [print_handles_type, hlc]
  · intro t ht
    simp [print_handles_type, ht]

end uv
